import Mathlib

/-!
Shallow embedding of the slot-booking core of the booking-api service
(src/index.js, hardened revision: the handlers for POST /api/bookings,
POST /api/bookings/cancel, GET /api/config and POST /api/config), and
proofs about its behaviour.

Modelling conventions:
* the MongoDB `bookings` collection is a `List Booking` in insertion
  order; `countDocuments` is a filter-and-length, `findOne` is `find?`
  on that order, `deleteOne` removes the first match;
* request fields absent from the JSON body are `none`; JavaScript
  string falsiness (`!x`) is `none`-or-empty-string;
* `Date.now()` (the booking id) and the current instant of the cancel
  handler are explicit parameters, in epoch milliseconds; the random
  cancel token is an explicit parameter;
* descriptive booking fields the handlers never branch on
  (name, phone, notes, service, timezone, clinic metadata other than
  `clinicEmail`, createdAt, ...) are omitted from the record;
* floating point: all quantities the handlers compare are integral in
  epoch milliseconds, where double arithmetic is exact, so `Int`
  arithmetic models it; the displayed `Math.round(hours * 10) / 10`
  value is modelled exactly, in tenths of an hour.
-/

namespace BookingApi

/-- JavaScript string falsiness of a possibly-absent field: `!x` is true
exactly when the field is absent (undefined) or the empty string. -/
def jsFalsyStr (o : Option String) : Bool :=
  o.getD "" == ""

/-- Source regex `^\d{4}-\d{2}-\d{2}$` on the `date` field. -/
def validDateFormat (s : String) : Bool :=
  match s.toList with
  | [y1, y2, y3, y4, h1, m1, m2, h2, d1, d2] =>
    y1.isDigit && y2.isDigit && y3.isDigit && y4.isDigit && h1 == '-' &&
    m1.isDigit && m2.isDigit && h2 == '-' && d1.isDigit && d2.isDigit
  | _ => false

/-- Source regex `^\d{2}:\d{2}$` on the `time` field. -/
def validTimeFormat (s : String) : Bool :=
  match s.toList with
  | [t1, t2, c1, u1, u2] =>
    t1.isDigit && t2.isDigit && c1 == ':' && u1.isDigit && u2.isDigit
  | _ => false

/-- Character class `[^\s@]` of the email regex. -/
def isEmailChar (c : Char) : Bool :=
  !c.isWhitespace && c != '@'

/-- Splitting a character list at every occurrence of a separator, the
semantics of `String.splitOn` for a one-character separator. -/
def splitAtChar (sep : Char) : List Char → List (List Char)
  | [] => [[]]
  | c :: rest =>
    if c == sep then [] :: splitAtChar sep rest
    else
      match splitAtChar sep rest with
      | h :: t => (c :: h) :: t
      | [] => [[c]]

/-- Truth of the source regex `^[^\s@]+@[^\s@]+\.[^\s@]+$`: exactly one
`@`, a nonempty local part, and a domain part containing a dot with at
least one character on each side, no whitespace anywhere. -/
def emailFormatOk (s : String) : Bool :=
  match splitAtChar '@' s.toList with
  | [loc, dom] =>
    !loc.isEmpty && loc.all isEmailChar && dom.all isEmailChar &&
    ((dom.drop 1).dropLast.contains '.')
  | _ => false

/-- ASCII lowering, the fragment of `toLowerCase` the stored tenant keys
exercise. -/
def lowerChar (c : Char) : Char :=
  if 65 ≤ c.toNat ∧ c.toNat ≤ 90 then Char.ofNat (c.toNat + 32) else c

/-- Whitespace trimming on both ends, the semantics of `trim`. -/
def trimChars (cs : List Char) : List Char :=
  ((cs.dropWhile Char.isWhitespace).reverse.dropWhile Char.isWhitespace).reverse

/-- Tenant key normalisation from the handler:
`clinicEmail ? clinicEmail.toLowerCase().trim() : ''`. -/
def normClinicEmail : Option String → String
  | none => ""
  | some s => if s == "" then "" else String.mk (trimChars (s.toList.map lowerChar))

/-- Stored booking document (the fields the modelled handlers read or
write; `id` is the `Date.now()` value assigned at creation). -/
structure Booking where
  id : Nat
  date : String
  time : String
  clinicEmail : String
  status : String
  cancelToken : String
deriving DecidableEq

/-- Stored configuration document (`config` collection, `settings`). -/
structure Config where
  slotsPerHour : Int
deriving DecidableEq

/-- Database state: the `bookings` collection in insertion order and the
optional `settings` document of the `config` collection. -/
structure DB where
  bookings : List Booking
  config : Option Config
deriving DecidableEq

def DB.empty : DB := ⟨[], none⟩

/-- Error outcomes of the modelled handlers. `validation` carries the
response message; `cancellationWindow` carries the remaining time in
tenths of an hour (the handler reports `Math.round(hours * 10) / 10`). -/
inductive BookingError where
  | validation (msg : String)
  | slotFull
  | notFound
  | cancellationWindow (tenthsOfHour : Int)
deriving DecidableEq

/-- Status filter `status: { $nin: ['cancelled', 'no-show'] }` of the
availability count. -/
def isActiveStatus (s : String) : Bool :=
  !(s == "cancelled") && !(s == "no-show")

/-- Predicate of the availability-count query: same slot, active status. -/
def slotMatches (b : Booking) (d t c : String) : Bool :=
  (b.date == d) && (b.time == t) && (b.clinicEmail == c) && isActiveStatus b.status

/-- The `countDocuments` call of the create handler: number of stored
bookings for the slot `(d, t, c)` whose status is not in
{cancelled, no-show}. -/
def slotCount (bs : List Booking) (d t c : String) : Nat :=
  (bs.filter (fun b => slotMatches b d t c)).length

/-- Create-request body (the fields the handler branches on; `none`
means the field is absent from the JSON body). -/
structure CreateRequest where
  date : Option String
  time : Option String
  email : Option String
  slotsPerHour : Option Int
  clinicEmail : Option String
deriving DecidableEq

def reqDate (r : CreateRequest) : String := r.date.getD ""

def reqTime (r : CreateRequest) : String := r.time.getD ""

def reqClinic (r : CreateRequest) : String := normClinicEmail r.clinicEmail

/-- Capacity used by the availability check:
`const maxSlots = slotsPerHour || 1` — the request-level value when
present and truthy (nonzero), else `1`. The stored configuration is not
consulted. -/
def effectiveCapacity (r : CreateRequest) : Int :=
  match r.slotsPerHour with
  | some k => if k = 0 then 1 else k
  | none => 1

/-- Document inserted by the create handler (modelled fields):
`status = 'confirmed'`, `id = Date.now()`, the generated token, and the
normalised tenant key. -/
def mkBooking (r : CreateRequest) (nowId : Nat) (token : String) : Booking :=
  { id := nowId
    date := reqDate r
    time := reqTime r
    clinicEmail := reqClinic r
    status := "confirmed"
    cancelToken := token }

/-- POST /api/bookings handler: required-field and format validation in
source order, then the availability count against `maxSlots`, then the
insert. Returns the new booking id on success. -/
def createBooking (db : DB) (r : CreateRequest) (nowId : Nat) (token : String) :
    Except BookingError (DB × Nat) :=
  if jsFalsyStr r.date || jsFalsyStr r.time then
    .error (.validation "Date and time are required")
  else if !validDateFormat (reqDate r) then
    .error (.validation "Invalid date format")
  else if !validTimeFormat (reqTime r) then
    .error (.validation "Invalid time format")
  else if !jsFalsyStr r.email && !emailFormatOk (r.email.getD "") then
    .error (.validation "Invalid email format")
  else if effectiveCapacity r ≤ (slotCount db.bookings (reqDate r) (reqTime r) (reqClinic r) : Int) then
    .error .slotFull
  else
    .ok ({ db with bookings := db.bookings ++ [mkBooking r nowId token] }, nowId)

/-- Decimal value of a digit character. -/
def digitVal (c : Char) : Nat := c.toNat - 48

def digitsToNat (cs : List Char) : Nat :=
  cs.foldl (fun a c => a * 10 + digitVal c) 0

/-- JavaScript `parseInt` on a string argument, radix 10: skip leading
whitespace, optional sign, longest digit run; `none` models `NaN`. -/
def parseIntJS (s : String) : Option Int :=
  let cs := s.toList.dropWhile (fun c => c.isWhitespace)
  let signed : Bool × List Char :=
    match cs with
    | '-' :: rest => (true, rest)
    | '+' :: rest => (false, rest)
    | _ => (false, cs)
  let ds := signed.2.takeWhile (fun c => c.isDigit)
  if ds.isEmpty then none
  else if signed.1 then some (-(digitsToNat ds : Int))
  else some (digitsToNat ds)

/-- POST /api/config handler: stores `parseInt(slotsPerHour) || 1` (the
parse result unless it is `NaN` or `0`, in which case `1`) and returns
the stored document. -/
def setConfig (db : DB) (slotsPerHour : String) : DB × Config :=
  let v : Int :=
    match parseIntJS slotsPerHour with
    | none => 1
    | some k => if k = 0 then 1 else k
  ({ db with config := some ⟨v⟩ }, ⟨v⟩)

/-- GET /api/config handler: returns the stored document; when none is
stored, inserts and returns `slotsPerHour = 1`. -/
def getConfig (db : DB) : DB × Config :=
  match db.config with
  | some c => (db, c)
  | none => ({ db with config := some ⟨1⟩ }, ⟨1⟩)

def isLeapYear (y : Nat) : Bool :=
  y % 4 == 0 && (y % 100 != 0 || y % 400 == 0)

def daysInMonth (y m : Nat) : Nat :=
  if m == 2 then (if isLeapYear y then 29 else 28)
  else if m == 4 || m == 6 || m == 9 || m == 11 then 30
  else 31

/-- Days from 0001-03-01-era bookkeeping, computed for the year shifted
up by 400 so every intermediate stays in `Nat` (one 400-year era is
exactly 146097 days). -/
def daysFromCivilShifted (y m d : Nat) : Nat :=
  let yAdj := if m ≤ 2 then y - 1 else y
  let era := yAdj / 400
  let yoe := yAdj % 400
  let mp := (m + 9) % 12
  let doy := (153 * mp + 2) / 5 + (d - 1)
  let doe := yoe * 365 + yoe / 4 - yoe / 100 + doy
  era * 146097 + doe

def msPerHour : Int := 3600000

/-- JavaScript `new Date(date + 'T' + time).getTime()` for the stored
strings: epoch milliseconds when the fields form a calendar-valid
YYYY-MM-DD / HH:MM pair, `none` for an Invalid Date (`NaN`). The
constant 865565 is `daysFromCivilShifted` at 1970-01-01. -/
def parseDateTimeMs (date time : String) : Option Int :=
  match date.toList, time.toList with
  | [y1, y2, y3, y4, h1, m1, m2, h2, d1, d2], [t1, t2, c1, u1, u2] =>
    if y1.isDigit && y2.isDigit && y3.isDigit && y4.isDigit && h1 == '-' &&
       m1.isDigit && m2.isDigit && h2 == '-' && d1.isDigit && d2.isDigit &&
       t1.isDigit && t2.isDigit && c1 == ':' && u1.isDigit && u2.isDigit then
      let y := 1000 * digitVal y1 + 100 * digitVal y2 + 10 * digitVal y3 + digitVal y4
      let mo := 10 * digitVal m1 + digitVal m2
      let da := 10 * digitVal d1 + digitVal d2
      let hh := 10 * digitVal t1 + digitVal t2
      let mi := 10 * digitVal u1 + digitVal u2
      if 1 ≤ mo && mo ≤ 12 && 1 ≤ da && da ≤ daysInMonth y mo &&
         ((hh ≤ 23 && mi ≤ 59) || (hh == 24 && mi == 0)) then
        some (((daysFromCivilShifted (y + 400) mo da : Int) - 865565) * 86400000
              + (hh : Int) * msPerHour + (mi : Int) * 60000)
      else none
    else none
  | _, _ => none

/-- Exact value of `Math.round(diffMs / 3600000 * 10)`: the remaining
time in tenths of an hour, rounded half towards positive infinity. -/
def roundTenthsOfHour (diffMs : Int) : Int :=
  Int.fdiv (diffMs + 180000) 360000

/-- Mongo `deleteOne({ id })`: removes the first stored booking whose
`id` equals the parsed request id. -/
def deleteFirstById : List Booking → Int → List Booking
  | [], _ => []
  | b :: rest, i => if ((b.id : Int) == i) then rest else b :: deleteFirstById rest i

def deleteBk (db : DB) (i : Int) : DB :=
  { db with bookings := deleteFirstById db.bookings i }

/-- Lookup filter of the cancel handler:
`{ id: parseInt(id), cancelToken: token, status: { $ne: 'cancelled' } }`. -/
def cancelPred (i : Int) (token : String) (b : Booking) : Bool :=
  ((b.id : Int) == i) && (b.cancelToken == token) && !(b.status == "cancelled")

/-- POST /api/bookings/cancel handler. `token` and `id` are the body
fields after JSON decoding (empty token and id 0 are the falsy values
the `!token || !id` guard rejects); `owner` is the decoded owner flag;
`nowMs` is the current instant. A stored date/time pair that does not
parse (Invalid Date) makes the `hoursUntilBooking < 6` comparison false
(`NaN` comparisons are false), so cancellation proceeds. -/
def cancelBooking (db : DB) (token : String) (id : Int) (owner : Bool)
    (nowMs : Int) : Except BookingError DB :=
  if token == "" || id == 0 then
    .error (.validation "Token and ID are required")
  else
    match db.bookings.find? (cancelPred id token) with
    | none => .error .notFound
    | some b =>
      if owner then .ok (deleteBk db id)
      else
        match parseDateTimeMs b.date b.time with
        | none => .ok (deleteBk db id)
        | some t =>
          if t - nowMs < 6 * msPerHour then
            .error (.cancellationWindow (roundTenthsOfHour (t - nowMs)))
          else .ok (deleteBk db id)

/-- Operations of the modelled service, for reachability statements. -/
inductive Op where
  | create (r : CreateRequest) (nowId : Nat) (token : String)
  | cancel (token : String) (id : Int) (owner : Bool) (nowMs : Int)
  | getCfg
  | setCfg (slotsPerHour : String)
deriving DecidableEq

/-- State transition of one handler invocation: a failed handler leaves
the store unchanged. -/
def applyOp (db : DB) : Op → DB
  | .create r n tok =>
    match createBooking db r n tok with
    | .ok (db', _) => db'
    | .error _ => db
  | .cancel tok i owner nowMs =>
    match cancelBooking db tok i owner nowMs with
    | .ok db' => db'
    | .error _ => db
  | .getCfg => (getConfig db).1
  | .setCfg s => (setConfig db s).1

def runOps (db : DB) (ops : List Op) : DB :=
  ops.foldl applyOp db

def Reachable (db : DB) : Prop :=
  ∃ ops : List Op, runOps DB.empty ops = db

/-- Configured capacity of the (single-tenant) store, with the lazy
default of the config handlers. -/
def configCapacity (db : DB) : Int :=
  match db.config with
  | some c => c.slotsPerHour
  | none => 1

/-- Bound check used to state the amended capacity invariant: a create
operation is K-bounded when its effective capacity is at most K; other
operations are unconstrained. -/
def opCapBounded (K : Nat) : Op → Bool
  | .create r _ _ => decide (effectiveCapacity r ≤ (K : Int))
  | _ => true

/-- Validation conjunction of the create handler (all four checks of the
source, in order). -/
def requestValid (r : CreateRequest) : Bool :=
  !jsFalsyStr r.date && !jsFalsyStr r.time &&
  validDateFormat (reqDate r) && validTimeFormat (reqTime r) &&
  (jsFalsyStr r.email || emailFormatOk (r.email.getD ""))

/-- Modelled from the spec: capacity resolution as the specification
words it — "the request-level `slotsPerHour` if present, else a
configured default, else `1`" — used only to compare against the
capacity the source actually uses. -/
def effectiveCapacitySpec (r : CreateRequest) (cfg : Option Config) : Int :=
  match r.slotsPerHour with
  | some k => k
  | none =>
    match cfg with
    | some c => c.slotsPerHour
    | none => 1

/-! Helper lemmas about the embedded operations. -/

theorem slotCount_append_single (l : List Booking) (b : Booking) (d t c : String) :
    slotCount (l ++ [b]) d t c =
      slotCount l d t c + (if slotMatches b d t c then 1 else 0) := by
  simp only [slotCount, List.filter_append]
  rcases hb : slotMatches b d t c <;>
    simp [List.filter, hb]

theorem deleteFirstById_sublist (l : List Booking) (i : Int) :
    List.Sublist (deleteFirstById l i) l := by
  induction l with
  | nil => exact List.Sublist.refl _
  | cons b rest ih =>
    rw [deleteFirstById]
    split
    · exact List.sublist_cons_self b rest
    · exact ih.cons₂ b

theorem slotCount_le_of_sublist {l₁ l₂ : List Booking}
    (h : List.Sublist l₁ l₂) (d t c : String) :
    slotCount l₁ d t c ≤ slotCount l₂ d t c :=
  (h.filter _).length_le

theorem getConfig_bookings (db : DB) : (getConfig db).1.bookings = db.bookings := by
  rw [getConfig]
  split <;> rfl

theorem setConfig_bookings (db : DB) (s : String) :
    (setConfig db s).1.bookings = db.bookings := rfl

theorem createBooking_ok_shape {db : DB} {r : CreateRequest} {n : Nat}
    {tok : String} {db' : DB} {m : Nat}
    (h : createBooking db r n tok = .ok (db', m)) :
    db' = { db with bookings := db.bookings ++ [mkBooking r n tok] } ∧ m = n ∧
    (slotCount db.bookings (reqDate r) (reqTime r) (reqClinic r) : Int) <
      effectiveCapacity r := by
  rw [createBooking] at h
  split at h
  · exact Except.noConfusion h
  split at h
  · exact Except.noConfusion h
  split at h
  · exact Except.noConfusion h
  split at h
  · exact Except.noConfusion h
  split at h
  · exact Except.noConfusion h
  next hc =>
    simp only [Except.ok.injEq, Prod.mk.injEq] at h
    exact ⟨h.1.symm, h.2.symm, lt_of_not_le hc⟩

theorem cancelBooking_ok_shape {db : DB} {tok : String} {i : Int}
    {owner : Bool} {nowMs : Int} {db' : DB}
    (h : cancelBooking db tok i owner nowMs = .ok db') :
    db' = deleteBk db i := by
  rw [cancelBooking] at h
  split at h
  · exact Except.noConfusion h
  split at h
  · exact Except.noConfusion h
  split at h
  · simp only [Except.ok.injEq] at h
    exact h.symm
  split at h
  · simp only [Except.ok.injEq] at h
    exact h.symm
  split at h
  · exact Except.noConfusion h
  · simp only [Except.ok.injEq] at h
    exact h.symm

theorem createBooking_valid_eq (db : DB) (r : CreateRequest) (n : Nat)
    (tok : String) (hv : requestValid r = true) :
    createBooking db r n tok =
      if effectiveCapacity r ≤
          (slotCount db.bookings (reqDate r) (reqTime r) (reqClinic r) : Int) then
        .error .slotFull
      else
        .ok ({ db with bookings := db.bookings ++ [mkBooking r n tok] }, n) := by
  simp only [requestValid, Bool.and_eq_true] at hv
  obtain ⟨⟨⟨⟨hd, ht⟩, hdf⟩, htf⟩, he⟩ := hv
  rw [Bool.not_eq_true'] at hd ht
  have hcond : (!jsFalsyStr r.email && !emailFormatOk (r.email.getD "")) = false := by
    rw [← Bool.not_or, he]
    rfl
  rw [createBooking, hd, ht, hdf, htf, hcond]
  simp

theorem createBooking_invalid (db : DB) (r : CreateRequest) (n : Nat)
    (tok : String) (hv : requestValid r = false) :
    ∃ msg, createBooking db r n tok = .error (.validation msg) := by
  rw [createBooking]
  by_cases h1 : (jsFalsyStr r.date || jsFalsyStr r.time) = true
  · rw [if_pos h1]
    exact ⟨_, rfl⟩
  · rw [if_neg h1]
    by_cases h2 : (!validDateFormat (reqDate r)) = true
    · rw [if_pos h2]
      exact ⟨_, rfl⟩
    · rw [if_neg h2]
      by_cases h3 : (!validTimeFormat (reqTime r)) = true
      · rw [if_pos h3]
        exact ⟨_, rfl⟩
      · rw [if_neg h3]
        by_cases h4 : (!jsFalsyStr r.email && !emailFormatOk (r.email.getD "")) = true
        · rw [if_pos h4]
          exact ⟨_, rfl⟩
        · exfalso
          rw [Bool.not_eq_true, Bool.or_eq_false_iff] at h1
          rw [Bool.not_eq_true, Bool.not_eq_false'] at h2 h3
          rw [Bool.not_eq_true, Bool.and_eq_false_iff] at h4
          rw [requestValid, h1.1, h1.2, h2, h3] at hv
          simp only [Bool.not_false, Bool.true_and] at hv
          rcases h4 with h4 | h4 <;>
            rw [Bool.not_eq_false'] at h4 <;>
            rw [h4] at hv <;> simp at hv

theorem applyOp_status (db : DB) (op : Op)
    (h : ∀ b ∈ db.bookings, b.status = "confirmed") :
    ∀ b ∈ (applyOp db op).bookings, b.status = "confirmed" := by
  cases op with
  | create r n tok =>
    simp only [applyOp]
    cases hc : createBooking db r n tok with
    | error e => exact h
    | ok p =>
      obtain ⟨db', m⟩ := p
      obtain ⟨hdb, hm, hlt⟩ := createBooking_ok_shape hc
      subst hdb
      intro b hb
      show b.status = "confirmed"
      have hb' : b ∈ db.bookings ++ [mkBooking r n tok] := hb
      rcases List.mem_append.mp hb' with hb2 | hb2
      · exact h b hb2
      · rw [List.mem_singleton.mp hb2]
        rfl
  | cancel tok i owner nowMs =>
    simp only [applyOp]
    cases hc : cancelBooking db tok i owner nowMs with
    | error e => exact h
    | ok db' =>
      have hdb := cancelBooking_ok_shape hc
      subst hdb
      intro b hb
      exact h b ((deleteFirstById_sublist db.bookings i).subset hb)
  | getCfg =>
    simp only [applyOp]
    rw [getConfig_bookings]
    exact h
  | setCfg s =>
    simp only [applyOp]
    exact h

theorem runOps_status (db : DB) (ops : List Op)
    (h : ∀ b ∈ db.bookings, b.status = "confirmed") :
    ∀ b ∈ (runOps db ops).bookings, b.status = "confirmed" := by
  induction ops generalizing db with
  | nil => exact h
  | cons op rest ih => exact ih (applyOp db op) (applyOp_status db op h)

theorem applyOp_capacity (K : Nat) (db : DB) (op : Op)
    (hop : opCapBounded K op = true)
    (h : ∀ d t c, slotCount db.bookings d t c ≤ K) (d t c : String) :
    slotCount (applyOp db op).bookings d t c ≤ K := by
  cases op with
  | create r n tok =>
    simp only [applyOp]
    cases hc : createBooking db r n tok with
    | error e => exact h d t c
    | ok p =>
      obtain ⟨db', m⟩ := p
      obtain ⟨hdb, hm, hlt⟩ := createBooking_ok_shape hc
      subst hdb
      simp only [opCapBounded, decide_eq_true_eq] at hop
      show slotCount (db.bookings ++ [mkBooking r n tok]) d t c ≤ K
      rw [slotCount_append_single]
      by_cases hmatch : slotMatches (mkBooking r n tok) d t c = true
      · rw [if_pos hmatch]
        simp only [slotMatches, mkBooking, Bool.and_eq_true, beq_iff_eq] at hmatch
        obtain ⟨⟨⟨hd1, ht1⟩, hc1⟩, _⟩ := hmatch
        rw [← hd1, ← ht1, ← hc1]
        have h2 : (slotCount db.bookings (reqDate r) (reqTime r) (reqClinic r) : Int) <
            (K : Int) := lt_of_lt_of_le hlt hop
        omega
      · rw [if_neg hmatch]
        simpa using h d t c
  | cancel tok i owner nowMs =>
    simp only [applyOp]
    cases hc : cancelBooking db tok i owner nowMs with
    | error e => exact h d t c
    | ok db' =>
      have hdb := cancelBooking_ok_shape hc
      subst hdb
      exact le_trans
        (slotCount_le_of_sublist (deleteFirstById_sublist db.bookings i) d t c)
        (h d t c)
  | getCfg =>
    simp only [applyOp]
    rw [getConfig_bookings]
    exact h d t c
  | setCfg s =>
    simp only [applyOp]
    exact h d t c

theorem runOps_capacity (K : Nat) (db : DB) (ops : List Op)
    (hops : ops.all (opCapBounded K) = true)
    (h : ∀ d t c, slotCount db.bookings d t c ≤ K) (d t c : String) :
    slotCount (runOps db ops).bookings d t c ≤ K := by
  induction ops generalizing db with
  | nil => exact h d t c
  | cons op rest ih =>
    rw [List.all_cons, Bool.and_eq_true] at hops
    exact ih (applyOp db op) hops.2 (applyOp_capacity K db op hops.1 h)

/-! Claim C1. -/

def c1Request : CreateRequest :=
  ⟨some "2026-01-20", some "10:00", none, some 2, some "a@b.com"⟩

def c1Ops : List Op :=
  [.setCfg "1", .create c1Request 100 "tokenA", .create c1Request 200 "tokenB"]

/-- C1, counterexample: a reachable state whose configured `slotsPerHour`
is 1 while the slot (2026-01-20, 10:00, a@b.com) holds 2 active
bookings — two create requests carrying `slotsPerHour = 2` both succeed
because the handler uses the request-level value and never reads the
stored configuration, so the claimed invariant against the configured
capacity is false. -/
theorem c1_counterexample :
    Reachable (runOps DB.empty c1Ops) ∧
    (runOps DB.empty c1Ops).config = some ⟨1⟩ ∧
    slotCount (runOps DB.empty c1Ops).bookings "2026-01-20" "10:00" "a@b.com" = 2 :=
  ⟨⟨c1Ops, rfl⟩, rfl, rfl⟩

/-- C1 (amended): the per-slot capacity invariant holds with respect to
the request-level effective capacities rather than the stored
configuration: in every state reached from the empty store by a sequence
of operations whose create requests all have effective capacity
(request `slotsPerHour` when present and nonzero, else 1) at most K, the
number of stored bookings per (date, time, clinicEmail) whose status is
not in {cancelled, no-show} is at most K. -/
theorem c1_capacity_bound (ops : List Op) (K : Nat)
    (h : ops.all (opCapBounded K) = true) (d t c : String) :
    slotCount (runOps DB.empty ops).bookings d t c ≤ K :=
  runOps_capacity K DB.empty ops h (fun _ _ _ => Nat.zero_le K) d t c

/-- C1 witness: the capacity bound applied to one concrete create
operation of effective capacity 1. -/
theorem c1_capacity_bound_witness :
    slotCount (runOps DB.empty
        [Op.create ⟨some "2026-01-20", some "10:00", none, none, some "a@b.com"⟩
          101 "tokenW"]).bookings
      "2026-01-20" "10:00" "a@b.com" ≤ 1 :=
  c1_capacity_bound _ 1 (by decide) _ _ _

/-! Claim C10. -/

/-- C10: in every reachable state every stored booking has status
`confirmed` — bookings are inserted with that status and the only
cancellation path deletes the document — so the active-status filter of
the availability count excludes nothing. -/
theorem c10_only_confirmed (db : DB) (h : Reachable db) :
    (∀ b ∈ db.bookings, b.status = "confirmed") ∧
    db.bookings.filter (fun b => isActiveStatus b.status) = db.bookings := by
  obtain ⟨ops, rfl⟩ := h
  have hall := runOps_status DB.empty ops
    (fun b hb => absurd hb (List.not_mem_nil b))
  refine ⟨hall, List.filter_eq_self.mpr ?_⟩
  intro b hb
  rw [hall b hb]
  rfl

/-- C10 witness: the invariant applied to the state reached by one
concrete create operation. -/
theorem c10_only_confirmed_witness :
    (∀ b ∈ (runOps DB.empty
        [Op.create ⟨some "2026-01-20", some "11:00", none, none, none⟩
          102 "tokenX"]).bookings, b.status = "confirmed") ∧
    (runOps DB.empty
        [Op.create ⟨some "2026-01-20", some "11:00", none, none, none⟩
          102 "tokenX"]).bookings.filter (fun b => isActiveStatus b.status) =
      (runOps DB.empty
        [Op.create ⟨some "2026-01-20", some "11:00", none, none, none⟩
          102 "tokenX"]).bookings :=
  c10_only_confirmed _ ⟨_, rfl⟩

/-! Claim C2. -/

/-- C2: for a validation-passing request, the create handler fails with
the slot-full error and leaves the store unchanged whenever the slot
(date, time, clinicEmail) already holds at least the effective capacity
of bookings with status not in {cancelled, no-show}; otherwise it
persists a new booking with status `confirmed` and returns its
identifier. -/
theorem c2_slot_full_behaviour (db : DB) (r : CreateRequest) (n : Nat)
    (tok : String) (hv : requestValid r = true) :
    (effectiveCapacity r ≤
        (slotCount db.bookings (reqDate r) (reqTime r) (reqClinic r) : Int) →
      createBooking db r n tok = .error .slotFull ∧
      applyOp db (.create r n tok) = db) ∧
    ((slotCount db.bookings (reqDate r) (reqTime r) (reqClinic r) : Int) <
        effectiveCapacity r →
      createBooking db r n tok =
        .ok ({ db with bookings := db.bookings ++ [mkBooking r n tok] }, n) ∧
      (mkBooking r n tok).status = "confirmed") := by
  constructor
  · intro hge
    have he := createBooking_valid_eq db r n tok hv
    rw [if_pos hge] at he
    refine ⟨he, ?_⟩
    simp only [applyOp, he]
  · intro hlt
    have he := createBooking_valid_eq db r n tok hv
    rw [if_neg (not_le.mpr hlt)] at he
    exact ⟨he, rfl⟩

def c2Request : CreateRequest :=
  ⟨some "2026-01-20", some "10:00", none, none, some "a@b.com"⟩

def c2Booked : DB :=
  ⟨[⟨300, "2026-01-20", "10:00", "a@b.com", "confirmed", "tokenC"⟩], none⟩

/-- C2 witness: capacity 1 (no request override, no stored default): a
first request for the fresh slot succeeds and an identical second
request is rejected slot-full without changing the store. -/
theorem c2_slot_full_behaviour_witness :
    createBooking DB.empty c2Request 300 "tokenC" =
      .ok ({ DB.empty with
              bookings := DB.empty.bookings ++ [mkBooking c2Request 300 "tokenC"] },
           300) ∧
    createBooking c2Booked c2Request 301 "tokenD" = .error .slotFull ∧
    applyOp c2Booked (.create c2Request 301 "tokenD") = c2Booked :=
  ⟨((c2_slot_full_behaviour DB.empty c2Request 300 "tokenC" (by decide)).2
      (by decide)).1,
   ((c2_slot_full_behaviour c2Booked c2Request 301 "tokenD" (by decide)).1
      (by decide)).1,
   ((c2_slot_full_behaviour c2Booked c2Request 301 "tokenD" (by decide)).1
      (by decide)).2⟩

/-! Claim C5. -/

/-- C5: the create handler fails with a validation error exactly when
the date or time is missing (absent or empty), the date or the time
fails its format regex, or a nonempty email fails the email regex; and
any error outcome leaves the store unchanged, so no record is created. -/
theorem c5_validation (db : DB) (r : CreateRequest) (n : Nat) (tok : String) :
    ((∃ msg, createBooking db r n tok = .error (.validation msg)) ↔
      (jsFalsyStr r.date = true ∨ jsFalsyStr r.time = true ∨
       validDateFormat (reqDate r) = false ∨ validTimeFormat (reqTime r) = false ∨
       (jsFalsyStr r.email = false ∧ emailFormatOk (r.email.getD "") = false))) ∧
    (∀ e, createBooking db r n tok = .error e →
      applyOp db (.create r n tok) = db) := by
  constructor
  · constructor
    · rintro ⟨msg, h⟩
      rw [createBooking] at h
      split at h
      · next hcond =>
        rcases Bool.or_eq_true_iff.mp hcond with hc | hc
        · exact Or.inl hc
        · exact Or.inr (Or.inl hc)
      split at h
      · next hcond =>
        rw [Bool.not_eq_true'] at hcond
        exact Or.inr (Or.inr (Or.inl hcond))
      split at h
      · next hcond =>
        rw [Bool.not_eq_true'] at hcond
        exact Or.inr (Or.inr (Or.inr (Or.inl hcond)))
      split at h
      · next hcond =>
        obtain ⟨he1, he2⟩ := Bool.and_eq_true_iff.mp hcond
        rw [Bool.not_eq_true'] at he1 he2
        exact Or.inr (Or.inr (Or.inr (Or.inr ⟨he1, he2⟩)))
      split at h
      · simp at h
      · exact Except.noConfusion h
    · intro hdisj
      have hrv : requestValid r = false := by
        rw [requestValid]
        rcases hdisj with h | h | h | h | ⟨h1, h2⟩
        · rw [h]; simp
        · rw [h]; simp
        · rw [h]; simp
        · rw [h]; simp
        · rw [h1, h2]; simp
      exact createBooking_invalid db r n tok hrv
  · intro e he
    simp only [applyOp, he]

/-- C5 witness: a request with a missing date is rejected with a
validation error. -/
theorem c5_validation_witness :
    ∃ msg, createBooking DB.empty ⟨none, some "10:00", none, none, none⟩ 5 "tokenV" =
      .error (.validation msg) :=
  (c5_validation DB.empty ⟨none, some "10:00", none, none, none⟩ 5 "tokenV").1.mpr
    (Or.inl (by decide))

/-! Claim C6. -/

def c6Request : CreateRequest :=
  ⟨some "2026-01-20", some "10:00", none, none, some "a@b.com"⟩

def c6Ops : List Op :=
  [.setCfg "5", .create c6Request 400 "tokenD"]

/-- C6, counterexample: with a stored configured `slotsPerHour` of 5 and
one active booking in the slot, a request without `slotsPerHour` is
rejected slot-full — the handler used capacity 1, not the configured
default 5 that the claim (and the spec-worded resolution
`effectiveCapacitySpec`) requires. -/
theorem c6_counterexample :
    Reachable (runOps DB.empty c6Ops) ∧
    (runOps DB.empty c6Ops).config = some ⟨5⟩ ∧
    slotCount (runOps DB.empty c6Ops).bookings "2026-01-20" "10:00" "a@b.com" = 1 ∧
    effectiveCapacitySpec c6Request (runOps DB.empty c6Ops).config = 5 ∧
    createBooking (runOps DB.empty c6Ops) c6Request 401 "tokenE" = .error .slotFull :=
  ⟨⟨c6Ops, rfl⟩, rfl, rfl, rfl, rfl⟩

/-- C6 (amended): for a validation-passing request the availability
check compares the active-slot count against `effectiveCapacity` — the
request-level `slotsPerHour` when present and nonzero, else 1 — and the
stored configuration has no influence on the slot-full outcome. -/
theorem c6_capacity_resolution (db : DB) (cfg' : Option Config)
    (r : CreateRequest) (n : Nat) (tok : String) (hv : requestValid r = true) :
    (createBooking db r n tok = .error .slotFull ↔
      effectiveCapacity r ≤
        (slotCount db.bookings (reqDate r) (reqTime r) (reqClinic r) : Int)) ∧
    (createBooking { db with config := cfg' } r n tok = .error .slotFull ↔
      createBooking db r n tok = .error .slotFull) := by
  have h1 := createBooking_valid_eq db r n tok hv
  have h2 := createBooking_valid_eq { db with config := cfg' } r n tok hv
  have hb : ({ db with config := cfg' } : DB).bookings = db.bookings := rfl
  rw [hb] at h2
  by_cases hc : effectiveCapacity r ≤
      (slotCount db.bookings (reqDate r) (reqTime r) (reqClinic r) : Int)
  · rw [if_pos hc] at h1 h2
    rw [h1, h2]
    exact ⟨⟨fun _ => hc, fun _ => rfl⟩, Iff.rfl⟩
  · rw [if_neg hc] at h1 h2
    rw [h1, h2]
    exact ⟨⟨fun h => Except.noConfusion h, fun h => absurd h hc⟩,
      ⟨fun h => Except.noConfusion h, fun h => Except.noConfusion h⟩⟩

def c6Full : DB :=
  ⟨[⟨500, "2026-02-02", "09:00", "b@c.org", "confirmed", "tokenF"⟩,
    ⟨501, "2026-02-02", "09:00", "b@c.org", "confirmed", "tokenG"⟩], some ⟨9⟩⟩

def c6Request2 : CreateRequest :=
  ⟨some "2026-02-02", some "09:00", none, some 2, some "b@c.org"⟩

/-- C6 witness: a request-level capacity of 2 on a slot holding 2 active
bookings is slot-full whatever the stored configuration says. -/
theorem c6_capacity_resolution_witness :
    (createBooking c6Full c6Request2 502 "tokenH" = .error .slotFull ↔
      effectiveCapacity c6Request2 ≤
        (slotCount c6Full.bookings (reqDate c6Request2) (reqTime c6Request2)
          (reqClinic c6Request2) : Int)) ∧
    (createBooking { c6Full with config := some ⟨77⟩ } c6Request2 502 "tokenH" =
        .error .slotFull ↔
      createBooking c6Full c6Request2 502 "tokenH" = .error .slotFull) :=
  c6_capacity_resolution c6Full (some ⟨77⟩) c6Request2 502 "tokenH" (by decide)

/-! Claim C3. -/

/-- C3: for a stored booking located by a valid (id, token) pair whose
parsed appointment instant is less than 6 hours after `nowMs`, a
client cancellation (owner = false) fails with the cancellation-window
error reporting the remaining time (in tenths of an hour) and leaves
the store unchanged, while an owner cancellation (owner = true) of the
same booking succeeds regardless of the remaining time. -/
theorem c3_cancellation_window (db : DB) (tok : String) (i : Int)
    (nowMs tMs : Int) (b : Booking)
    (htok : tok ≠ "") (hid : i ≠ 0)
    (hfind : db.bookings.find? (cancelPred i tok) = some b)
    (hparse : parseDateTimeMs b.date b.time = some tMs)
    (hlt : tMs - nowMs < 6 * msPerHour) :
    cancelBooking db tok i false nowMs =
      .error (.cancellationWindow (roundTenthsOfHour (tMs - nowMs))) ∧
    applyOp db (.cancel tok i false nowMs) = db ∧
    cancelBooking db tok i true nowMs = .ok (deleteBk db i) := by
  have hguard : (tok == "" || i == 0) = false := by
    simp [htok, hid]
  have h1 : cancelBooking db tok i false nowMs =
      .error (.cancellationWindow (roundTenthsOfHour (tMs - nowMs))) := by
    rw [cancelBooking, hguard]
    simp [hfind, hparse, hlt]
  refine ⟨h1, by simp only [applyOp, h1], ?_⟩
  rw [cancelBooking, hguard]
  simp [hfind]

def c3Booking : Booking :=
  ⟨600, "2026-01-20", "10:00", "a@b.com", "confirmed", "tokenS"⟩

def c3DB : DB := ⟨[c3Booking], none⟩

/-- C3 witness: a booking at 2026-01-20T10:00 cancelled 5 hours before
the appointment: the client attempt reports 5.0 remaining hours (50
tenths), the owner attempt succeeds. -/
theorem c3_cancellation_window_witness :
    cancelBooking c3DB "tokenS" 600 false 1768885200000 =
      .error (.cancellationWindow
        (roundTenthsOfHour (1768903200000 - 1768885200000))) ∧
    applyOp c3DB (.cancel "tokenS" 600 false 1768885200000) = c3DB ∧
    cancelBooking c3DB "tokenS" 600 true 1768885200000 = .ok (deleteBk c3DB 600) :=
  c3_cancellation_window c3DB "tokenS" 600 1768885200000 1768903200000 c3Booking
    (by decide) (by decide) (by decide) (by decide) (by decide)

/-! Claim C4. -/

/-- C4: when no stored booking matches (parsed id, cancelToken = token,
status ≠ cancelled) — in particular under a wrong token for an existing
id, or a token reuse after the booking was removed — the cancel handler
fails with the not-found error and leaves the store unchanged. -/
theorem c4_cancel_not_found (db : DB) (tok : String) (i : Int) (owner : Bool)
    (nowMs : Int) (htok : tok ≠ "") (hid : i ≠ 0)
    (hnone : db.bookings.find? (cancelPred i tok) = none) :
    cancelBooking db tok i owner nowMs = .error .notFound ∧
    applyOp db (.cancel tok i owner nowMs) = db := by
  have hguard : (tok == "" || i == 0) = false := by
    simp [htok, hid]
  have h1 : cancelBooking db tok i owner nowMs = .error .notFound := by
    rw [cancelBooking, hguard]
    simp [hnone]
  exact ⟨h1, by simp only [applyOp, h1]⟩

def c4DB : DB := ⟨[⟨700, "2026-03-03", "12:00", "", "confirmed", "tokenK"⟩], none⟩

/-- C4 witness: a wrong token for the stored id 700 is not found; after
the booking is removed, reusing the formerly valid token is not found
either; neither attempt changes the store. -/
theorem c4_cancel_not_found_witness :
    (cancelBooking c4DB "tokenWRONG" 700 false 0 = .error .notFound ∧
     applyOp c4DB (.cancel "tokenWRONG" 700 false 0) = c4DB) ∧
    (cancelBooking (deleteBk c4DB 700) "tokenK" 700 false 0 = .error .notFound ∧
     applyOp (deleteBk c4DB 700) (.cancel "tokenK" 700 false 0) = deleteBk c4DB 700) :=
  ⟨c4_cancel_not_found c4DB "tokenWRONG" 700 false 0
      (by decide) (by decide) (by decide),
   c4_cancel_not_found (deleteBk c4DB 700) "tokenK" 700 false 0
      (by decide) (by decide) (by decide)⟩

/-! Claim C7. -/

theorem deleteFirstById_append {l l2 : List Booking} {i : Int}
    (h : ∀ b ∈ l, ((b.id : Int) == i) = false) :
    deleteFirstById (l ++ l2) i = l ++ deleteFirstById l2 i := by
  induction l with
  | nil => rfl
  | cons a rest ih =>
    have ha := h a (List.mem_cons_self a rest)
    simp only [List.cons_append, deleteFirstById, ha, Bool.false_eq_true, if_false,
      List.append_eq]
    rw [ih (fun b hb => h b (List.mem_cons_of_mem a hb))]

/-- C7: slot-release round trip at capacity 1: on a store whose slot
(date, time, clinicEmail) is free and holds no booking with id `n`, a
create succeeds, cancelling the created booking with its id and token
succeeds and restores the original bookings list, and a second create
for the same slot succeeds again. -/
theorem c7_slot_release (db : DB) (r : CreateRequest) (n n2 : Nat)
    (tok tok2 : String) (nowMs : Int)
    (hv : requestValid r = true)
    (hcap : effectiveCapacity r = 1)
    (hfresh : slotCount db.bookings (reqDate r) (reqTime r) (reqClinic r) = 0)
    (hids : ∀ b ∈ db.bookings, b.id ≠ n)
    (hn : n ≠ 0) (htok : tok ≠ "") :
    ∃ db1 db2 db3,
      createBooking db r n tok = .ok (db1, n) ∧
      cancelBooking db1 tok (n : Int) true nowMs = .ok db2 ∧
      db2.bookings = db.bookings ∧
      createBooking db2 r n2 tok2 = .ok (db3, n2) := by
  have hcond : ¬(effectiveCapacity r ≤
      (slotCount db.bookings (reqDate r) (reqTime r) (reqClinic r) : Int)) := by
    rw [hcap, hfresh]
    simp
  have he1 := createBooking_valid_eq db r n tok hv
  rw [if_neg hcond] at he1
  have hguard : (tok == "" || (n : Int) == 0) = false := by
    simp [htok, hn]
  have hids' : ∀ b ∈ db.bookings, ((b.id : Int) == (n : Int)) = false := by
    intro b hb
    rw [beq_eq_false_iff_ne]
    intro hh
    exact hids b hb (by exact_mod_cast hh)
  have hpref : db.bookings.find? (cancelPred (n : Int) tok) = none := by
    rw [List.find?_eq_none]
    intro x hx hpx
    simp only [cancelPred, Bool.and_eq_true, beq_iff_eq] at hpx
    exact hids x hx (by exact_mod_cast hpx.1.1)
  have hp : cancelPred (n : Int) tok (mkBooking r n tok) = true := by
    simp [cancelPred, mkBooking]
  have hfind1 : (db.bookings ++ [mkBooking r n tok]).find?
      (cancelPred (n : Int) tok) = some (mkBooking r n tok) := by
    rw [List.find?_append, hpref]
    simp [hp]
  have he2 : cancelBooking
      { db with bookings := db.bookings ++ [mkBooking r n tok] } tok (n : Int)
      true nowMs =
      .ok (deleteBk { db with bookings := db.bookings ++ [mkBooking r n tok] }
        (n : Int)) := by
    rw [cancelBooking, hguard]
    simp only [Bool.false_eq_true, if_false]
    simp [hfind1]
  have hdel : deleteFirstById (db.bookings ++ [mkBooking r n tok]) (n : Int) =
      db.bookings := by
    rw [deleteFirstById_append hids']
    simp [deleteFirstById, mkBooking]
  have hb2 : (deleteBk { db with bookings := db.bookings ++ [mkBooking r n tok] }
      (n : Int)).bookings = db.bookings := hdel
  have hcond2 : ¬(effectiveCapacity r ≤
      (slotCount (deleteBk { db with bookings := db.bookings ++ [mkBooking r n tok] }
        (n : Int)).bookings (reqDate r) (reqTime r) (reqClinic r) : Int)) := by
    rw [hb2, hcap, hfresh]
    simp
  have he3 := createBooking_valid_eq
    (deleteBk { db with bookings := db.bookings ++ [mkBooking r n tok] } (n : Int))
    r n2 tok2 hv
  rw [if_neg hcond2] at he3
  exact ⟨_, _, _, he1, he2, hb2, he3⟩

def c7Request : CreateRequest :=
  ⟨some "2026-01-20", some "10:00", none, none, some "a@b.com"⟩

/-- C7 witness: the round trip create, cancel, create again on the empty
store. -/
theorem c7_slot_release_witness :
    ∃ db1 db2 db3,
      createBooking DB.empty c7Request 800 "tokenR" = .ok (db1, 800) ∧
      cancelBooking db1 "tokenR" (800 : Int) true 0 = .ok db2 ∧
      db2.bookings = DB.empty.bookings ∧
      createBooking db2 c7Request 801 "tokenT" = .ok (db3, 801) :=
  c7_slot_release DB.empty c7Request 800 801 "tokenR" "tokenT" 0
    (by decide) (by decide) (by decide)
    (fun b hb => absurd hb (List.not_mem_nil b)) (by decide) (by decide)

/-! Claim C8. -/

/-- C8, counterexample: setConfig on input "-3" stores
`slotsPerHour = -3` — `parseInt` yields -3, which is truthy, so the
`|| 1` fallback does not apply — refuting the claim that every stored
configuration has a positive `slotsPerHour`. -/
theorem c8_counterexample :
    (setConfig DB.empty "-3").1.config = some ⟨-3⟩ ∧ ¬(0 < (-3 : Int)) :=
  ⟨rfl, by decide⟩

/-- C8 (amended): setConfig always stores a nonzero integer: the parsed
value whenever `parseInt` yields a nonzero integer — positive parses are
stored as claimed, but negative parses are stored as-is — and the
fallback 1 when parsing fails or yields 0. -/
theorem c8_setconfig_nonzero (db : DB) (s : String) :
    (∃ v : Int, v ≠ 0 ∧ (setConfig db s).1.config = some ⟨v⟩ ∧
      (setConfig db s).2 = ⟨v⟩) ∧
    (∀ k : Int, parseIntJS s = some k → 0 < k →
      (setConfig db s).1.config = some ⟨k⟩) ∧
    (parseIntJS s = none → (setConfig db s).1.config = some ⟨1⟩) ∧
    (parseIntJS s = some 0 → (setConfig db s).1.config = some ⟨1⟩) := by
  refine ⟨?_, ?_, ?_, ?_⟩
  · cases hp : parseIntJS s with
    | none => exact ⟨1, one_ne_zero, by simp [setConfig, hp], by simp [setConfig, hp]⟩
    | some k =>
      by_cases hk : k = 0
      · subst hk
        exact ⟨1, one_ne_zero, by simp [setConfig, hp], by simp [setConfig, hp]⟩
      · exact ⟨k, hk, by simp [setConfig, hp, hk], by simp [setConfig, hp, hk]⟩
  · intro k hp hpos
    simp [setConfig, hp, hpos.ne']
  · intro hp
    simp [setConfig, hp]
  · intro hp
    simp [setConfig, hp]

/-- C8 witness: input "7" parses to the positive 7 and is stored; the
instantiated theorem also certifies nonzero storage and the fallbacks. -/
theorem c8_setconfig_nonzero_witness :
    (setConfig DB.empty "7").1.config = some ⟨7⟩ :=
  (c8_setconfig_nonzero DB.empty "7").2.1 7 (by decide) (by decide)

/-! Claim C9. -/

/-- C9: getConfig with no stored configuration returns
`slotsPerHour = 1` and persists it, so an immediate second read returns
the same value from the stored record without modifying the store;
getConfig with a stored record returns it without modifying the store. -/
theorem c9_getconfig_lazy (db : DB) :
    (db.config = none →
      getConfig db = ({ db with config := some ⟨1⟩ }, ⟨1⟩) ∧
      getConfig (getConfig db).1 = ((getConfig db).1, ⟨1⟩)) ∧
    (∀ c, db.config = some c → getConfig db = (db, c)) := by
  constructor
  · intro h
    have h1 : getConfig db = ({ db with config := some ⟨1⟩ }, ⟨1⟩) := by
      rw [getConfig, h]
    refine ⟨h1, ?_⟩
    rw [h1]
    rfl
  · intro c h
    rw [getConfig, h]

/-- C9 witness: the lazy default on the empty store: the first read
stores and returns capacity 1, the second read returns the stored 1. -/
theorem c9_getconfig_lazy_witness :
    getConfig DB.empty = (⟨[], some ⟨1⟩⟩, ⟨1⟩) ∧
    getConfig (getConfig DB.empty).1 = ((getConfig DB.empty).1, ⟨1⟩) :=
  (c9_getconfig_lazy DB.empty).1 rfl

end BookingApi
